import Mathlib

/-!
Verification development for the FEISHU table pdf-to-md translation service.

The definitions below are a shallow embedding of the Python sources:
`feishu_client.py` (record listing, streaming listing, single-record lookup),
`pdf_processor.py` (the four-stage per-record pipeline with its file cleanup),
and `app.py` (the HTTP endpoint guards and the blocking batch collection loop).
Machine-level concerns (network transport, actual bytes) are abstracted into
outcome parameters; control flow, field truthiness tests, cleanup ordering and
event emission are translated statement by statement from the source.
-/

namespace Pdf2Md

/-- FieldVal models one cell value as returned by `record.fields.get(col, \x7b\x7d)`
in `feishu_client.py`. The `absent` constructor is the `\x7b\x7d` default used when
the column is missing; lists and dicts are abstracted to their length, which is
all the eligibility code inspects. -/
inductive FieldVal where
  | absent
  | vnone
  | vbool (b : Bool)
  | vint (n : Int)
  | vstr (s : String)
  | vlist (n : Nat)
  | vdict (n : Nat)
deriving DecidableEq, Repr

/-- truthy mirrors Python truthiness for the modelled field values: empty
dict/list/string, zero, None and False are falsy. -/
def truthy : FieldVal → Bool
  | .absent => false
  | .vnone => false
  | .vbool b => b
  | .vint n => n != 0
  | .vstr s => !s.isEmpty
  | .vlist n => n != 0
  | .vdict n => n != 0

/-- isList mirrors `isinstance(v, list)`. -/
def isList : FieldVal → Bool
  | .vlist _ => true
  | _ => false

/-- isStr mirrors `isinstance(v, str)`. -/
def isStr : FieldVal → Bool
  | .vstr _ => true
  | _ => false

/-- isAbsent holds for the `\x7b\x7d` default of a missing column. -/
def isAbsent : FieldVal → Bool
  | .absent => true
  | _ => false

/-- listLen gives `len(v)` for list values (only ever applied after `isList`). -/
def listLen : FieldVal → Nat
  | .vlist n => n
  | _ => 0

/-- strBlank models `not s.strip()`: every character of the string is
whitespace (true in particular for the empty string). -/
def strBlank (s : String) : Bool :=
  s.toList.all Char.isWhitespace

/-- isBlankVal applies `strBlank` to string values; the callers guard it with
`isStr` exactly as the Python guards `.strip()` with `isinstance(v, str)`. -/
def isBlankVal : FieldVal → Bool
  | .vstr s => strBlank s
  | _ => false

/-- origin_has_value mirrors `feishu_client.py` line 66:
`origin_field and isinstance(origin_field, list) and len(origin_field) > 0`. -/
def origin_has_value (v : FieldVal) : Bool :=
  truthy v && isList v && decide (0 < listLen v)

/-- target_file_empty mirrors `feishu_client.py` line 69:
`not tf or not isinstance(tf, list) or len(tf) == 0`. -/
def target_file_empty (v : FieldVal) : Bool :=
  !truthy v || !isList v || decide (listLen v = 0)

/-- target_context_empty mirrors `feishu_client.py` line 70:
`not tc or (isinstance(tc, str) and not tc.strip())`. -/
def target_context_empty (v : FieldVal) : Bool :=
  !truthy v || (isStr v && isBlankVal v)

/-- is_eligible mirrors `feishu_client.py` line 73: a record is kept when the
origin column has a value and both target columns are empty. -/
def is_eligible (origin tf tc : FieldVal) : Bool :=
  origin_has_value origin && target_file_empty tf && target_context_empty tc

/-- Modelled from the spec wording of claim C4: the origin column value is a
non-empty list. -/
def spec_origin_eligible (v : FieldVal) : Bool :=
  isList v && decide (0 < listLen v)

/-- Modelled from the spec wording of claim C4: the target-file column is
empty, absent, or not a non-empty list. -/
def spec_target_file_clear (v : FieldVal) : Bool :=
  !truthy v || isAbsent v || !(isList v && decide (0 < listLen v))

/-- Modelled from the spec wording of claim C4: the target-context column is
empty, absent, or a blank (whitespace-only) string. -/
def spec_target_context_clear (v : FieldVal) : Bool :=
  !truthy v || isAbsent v || (isStr v && isBlankVal v)

/-- Modelled from the spec wording of claim C4: the whole batch eligibility
predicate as the spec states it. -/
def spec_is_eligible (origin tf tc : FieldVal) : Bool :=
  spec_origin_eligible origin && spec_target_file_clear tf && spec_target_context_clear tc

/-- C4: the batch eligibility predicate of the source agrees with the
spec-worded predicate on every field snapshot: eligible iff the origin column
is a non-empty list, the target-file column is empty, absent or not a
non-empty list, and the target-context column is empty, absent or a blank
string. -/
theorem is_eligible_iff_spec (origin tf tc : FieldVal) :
    is_eligible origin tf tc = spec_is_eligible origin tf tc := by
  have horigin : origin_has_value origin = spec_origin_eligible origin := by
    cases origin <;>
      simp [origin_has_value, spec_origin_eligible, truthy, isList, listLen]
    next n => by_cases h : n = 0 <;> simp [h]
  have htf : target_file_empty tf = spec_target_file_clear tf := by
    cases tf <;>
      simp [target_file_empty, spec_target_file_clear, truthy, isList, listLen, isAbsent]
    next n => by_cases h : n = 0 <;> simp [h]
  have htc : target_context_empty tc = spec_target_context_clear tc := by
    cases tc <;>
      simp [target_context_empty, spec_target_context_clear, truthy, isStr, isBlankVal, isAbsent]
  simp [is_eligible, spec_is_eligible, horigin, htf, htc]

/-- TableRecord is a row snapshot: its id plus the three field values the
eligibility code reads (`fields.get` on the origin, target-file and
target-context columns). -/
structure TableRecord where
  record_id : String
  origin : FieldVal
  target_file : FieldVal
  target_context : FieldVal
deriving DecidableEq, Repr

/-- record_eligible applies the batch eligibility test of
`feishu_client.py` lines 61-73 to one record snapshot. -/
def record_eligible (r : TableRecord) : Bool :=
  is_eligible r.origin r.target_file r.target_context

/-- Store models the remote table as the sequence of pages the paginated
list API returns; the page token is `none` exactly after the last page. An
empty store still answers one fetch with an empty item list. -/
def Store := List (List TableRecord)

/-- list_records_go is the `while True` loop of `FeishuClient.list_records`
(`feishu_client.py` lines 45-84): append the eligible records of the fetched
page, stop when the response carries no further page token. -/
def list_records_go : List TableRecord → List (List TableRecord) → List TableRecord → List TableRecord
  | page, [], acc => acc ++ page.filter record_eligible
  | page, next :: rest, acc => list_records_go next rest (acc ++ page.filter record_eligible)

/-- list_records mirrors `FeishuClient.list_records`: an empty store still
answers the first fetch (with no items), a non-empty store starts the loop at
its first page. -/
def list_records : List (List TableRecord) → List TableRecord
  | [] => list_records_go [] [] []
  | page :: rest => list_records_go page rest []

/-- PageInfo is the dictionary built in `feishu_client.py` lines 151-157. -/
structure PageInfo where
  page_number : Nat
  records_in_page : Nat
  eligible_in_page : Nat
  total_eligible_so_far : Nat
  has_more_pages : Bool
deriving DecidableEq, Repr

/-- PageEvent is one yielded tuple of `FeishuClient.list_records_streaming`:
either a per-page progress event or the final records-ready event. -/
inductive PageEvent where
  | page_loaded (info : PageInfo) (recs : List TableRecord)
  | records_ready (total_eligible : Nat) (total_pages : Nat) (recs : List TableRecord)
deriving DecidableEq, Repr

/-- is_page_loaded tests the constructor of a streaming event. -/
def is_page_loaded : PageEvent → Bool
  | .page_loaded _ _ => true
  | .records_ready _ _ _ => false

/-- count_page_loaded counts page_loaded events in an event sequence. -/
def count_page_loaded (evs : List PageEvent) : Nat :=
  (evs.filter is_page_loaded).length

/-- count_records_ready counts records_ready events in an event sequence. -/
def count_records_ready (evs : List PageEvent) : Nat :=
  (evs.filter fun e => !is_page_loaded e).length

/-- list_streaming_go is the loop of `FeishuClient.list_records_streaming`
(`feishu_client.py` lines 105-162). The loop body increments the page
counter, filters the page, extends the accumulator, and then checks the page
token: when no token remains it breaks out BEFORE the yield, so the final
page produces no page_loaded event; otherwise it yields the page event (whose
slice `eligible_records[-k:]` is exactly the eligible records of this page)
and continues. After the loop one records_ready event carries the full
accumulator. -/
def list_streaming_go : List TableRecord → List (List TableRecord) → Nat → List TableRecord → List PageEvent
  | page, [], pn, acc =>
      let acc2 := acc ++ page.filter record_eligible
      [PageEvent.records_ready acc2.length (pn + 1) acc2]
  | page, next :: rest, pn, acc =>
      let elig := page.filter record_eligible
      let acc2 := acc ++ elig
      PageEvent.page_loaded ⟨pn + 1, page.length, elig.length, acc2.length, true⟩ elig
        :: list_streaming_go next rest (pn + 1) acc2

/-- list_records_streaming mirrors `FeishuClient.list_records_streaming`:
the generator of page events over the whole store. -/
def list_records_streaming : List (List TableRecord) → List PageEvent
  | [] => list_streaming_go [] [] 0 []
  | page :: rest => list_streaming_go page rest 0 []

/-- pages_fetched is the number of list-API calls a traversal performs: one
per stored page, and still one for an empty store. -/
def pages_fetched : List (List TableRecord) → Nat
  | [] => 1
  | store => store.length

/-- list_streaming_go_shape: the event sequence produced from any loop state
is a block of page_loaded events, one per remaining non-final page, followed
by exactly the records_ready event whose payload is what the non-streaming
loop would accumulate from the same state. -/
theorem list_streaming_go_shape (rest : List (List TableRecord)) :
    ∀ (page : List TableRecord) (pn : Nat) (acc : List TableRecord),
    ∃ pre : List PageEvent,
      list_streaming_go page rest pn acc =
        pre ++ [PageEvent.records_ready (list_records_go page rest acc).length
          (pn + 1 + rest.length) (list_records_go page rest acc)]
      ∧ pre.all is_page_loaded = true ∧ pre.length = rest.length := by
  induction rest with
  | nil =>
      intro page pn acc
      exact ⟨[], rfl, rfl, rfl⟩
  | cons next rest ih =>
      intro page pn acc
      obtain ⟨pre, heq, hall, hlen⟩ := ih next (pn + 1) (acc ++ page.filter record_eligible)
      refine ⟨PageEvent.page_loaded
          ⟨pn + 1, page.length, (page.filter record_eligible).length,
            (acc ++ page.filter record_eligible).length, true⟩
          (page.filter record_eligible) :: pre, ?_, ?_, ?_⟩
      · simp only [list_streaming_go, list_records_go, heq, List.cons_append]
        have : pn + 1 + (next :: rest).length = pn + 1 + 1 + rest.length := by
          simp [List.length_cons]; omega
        rw [this]
      · simp only [List.all_cons, hall, is_page_loaded, Bool.and_self]
      · simp [hlen]

/-- count_page_loaded_append: the counter distributes over append. -/
theorem count_page_loaded_append (l1 l2 : List PageEvent) :
    count_page_loaded (l1 ++ l2) = count_page_loaded l1 + count_page_loaded l2 := by
  simp [count_page_loaded, List.filter_append]

/-- count_page_loaded_all: a block consisting only of page_loaded events
counts its own length. -/
theorem count_page_loaded_all (l : List PageEvent) (h : l.all is_page_loaded = true) :
    count_page_loaded l = l.length := by
  induction l with
  | nil => rfl
  | cons e l ih =>
      simp only [List.all_cons, Bool.and_eq_true] at h
      have hl := ih h.2
      simp only [count_page_loaded, List.filter_cons, h.1, if_true, List.length_cons] at hl ⊢
      omega

/-- count_records_ready_append: the counter distributes over append. -/
theorem count_records_ready_append (l1 l2 : List PageEvent) :
    count_records_ready (l1 ++ l2) = count_records_ready l1 + count_records_ready l2 := by
  simp [count_records_ready, List.filter_append]

/-- count_records_ready_all_pl: a block of page_loaded events contains no
records_ready event. -/
theorem count_records_ready_all_pl (l : List PageEvent) (h : l.all is_page_loaded = true) :
    count_records_ready l = 0 := by
  induction l with
  | nil => rfl
  | cons e l ih =>
      simp only [List.all_cons, Bool.and_eq_true] at h
      have hl := ih h.2
      simp only [count_records_ready, List.filter_cons, h.1, Bool.not_true, if_false] at hl ⊢
      exact hl

/-- C3 counterexample: a store with a single page holding one eligible record
is traversed in one page fetch, yet the stream contains zero page_loaded
events (the loop breaks before the yield on the last page), not one per
fetched page, and no page_loaded event precedes the records_ready event even
though the store is non-empty. -/
theorem single_page_store_emits_no_page_loaded :
    list_records_streaming [[⟨"A", .vlist 1, .absent, .absent⟩]] =
      [PageEvent.records_ready 1 1 [⟨"A", .vlist 1, .absent, .absent⟩]]
    ∧ count_page_loaded (list_records_streaming [[⟨"A", .vlist 1, .absent, .absent⟩]]) = 0
    ∧ pages_fetched [[⟨"A", .vlist 1, .absent, .absent⟩]] = 1 := by
  refine ⟨rfl, rfl, rfl⟩

/-- C3 amended: the streaming lister emits one PageLoaded event after each
fetched page EXCEPT the last, so a traversal of P pages emits P - 1
PageLoaded events; in particular no PageLoaded event precedes the final
RecordsReady event when the traversal has a single page. -/
theorem streaming_page_loaded_count (store : List (List TableRecord)) :
    count_page_loaded (list_records_streaming store) = pages_fetched store - 1 := by
  cases store with
  | nil =>
      rfl
  | cons page rest =>
      obtain ⟨pre, heq, hall, hlen⟩ := list_streaming_go_shape rest page 0 []
      simp only [list_records_streaming, heq, count_page_loaded_append]
      rw [count_page_loaded_all pre hall, hlen]
      simp [count_page_loaded, is_page_loaded, pages_fetched]

/-- C5: for every store state the streaming lister emits exactly one
records_ready event, every event before it is a page_loaded event, and the
record collection it carries (with its count and page total) is exactly the
output of the non-streaming list_records on the same store. -/
theorem streaming_ready_unique_last_matches_list_records (store : List (List TableRecord)) :
    count_records_ready (list_records_streaming store) = 1
    ∧ (list_records_streaming store).dropLast.all is_page_loaded = true
    ∧ (list_records_streaming store).getLast? =
        some (PageEvent.records_ready (list_records store).length (pages_fetched store)
          (list_records store)) := by
  have main : ∀ (page : List TableRecord) (rest : List (List TableRecord)),
      count_records_ready (list_streaming_go page rest 0 []) = 1
      ∧ (list_streaming_go page rest 0 []).dropLast.all is_page_loaded = true
      ∧ (list_streaming_go page rest 0 []).getLast? =
          some (PageEvent.records_ready (list_records_go page rest []).length
            (1 + rest.length) (list_records_go page rest [])) := by
    intro page rest
    obtain ⟨pre, heq, hall, hlen⟩ := list_streaming_go_shape rest page 0 []
    refine ⟨?_, ?_, ?_⟩
    · rw [heq, count_records_ready_append, count_records_ready_all_pl pre hall]
      rfl
    · rw [heq, List.dropLast_concat]
      exact hall
    · rw [heq, List.getLast?_concat]
  cases store with
  | nil =>
      have h := main [] []
      simpa [list_records_streaming, list_records, pages_fetched] using h
  | cons page rest =>
      have h := main page rest
      have hp : pages_fetched (page :: rest) = 1 + rest.length := by
        simp [pages_fetched]; omega
      simpa [list_records_streaming, list_records, hp] using h

/-- DlOutcome is the outcome of `PDFProcessor.download_pdf` for one record:
success, no resolvable file token, no field id, or an exception raised by the
transfer (caught inside download_pdf, which then returns None); the flag
records whether the local file had already been created when the exception
hit. -/
inductive DlOutcome where
  | ok
  | noToken
  | noFieldId
  | exn (fileCreated : Bool)
deriving DecidableEq, Repr

/-- CvOutcome is the outcome of `PDFProcessor.convert_pdf_to_zip`: success
(the archive exists), the converter ran but produced no archive, or the
converter raised (caught inside, returning None); the flag records whether an
archive file had been created before the exception. -/
inductive CvOutcome where
  | ok
  | noZip
  | exn (zipCreated : Bool)
deriving DecidableEq, Repr

/-- ExOutcome is the outcome of `PDFProcessor.extract_context`: the text of
the first markdown member, no markdown member found (the extraction directory
was still created), or an exception (caught inside, returning None); the flag
records whether the extraction directory had been created before the
exception. -/
inductive ExOutcome where
  | ok (content : String)
  | noMd
  | exn (dirCreated : Bool)
deriving DecidableEq, Repr

/-- UpOutcome is the outcome of `FeishuClient.upload_zip_and_context`, which
re-raises any failure to its caller. -/
inductive UpOutcome where
  | ok
  | exn
deriving DecidableEq, Repr

/-- PipelineEnv fixes, for one `process_record` invocation, how each of the
four externally-backed stages would behave. -/
structure PipelineEnv where
  download : DlOutcome
  convert : CvOutcome
  extract : ExOutcome
  upload : UpOutcome
deriving DecidableEq, Repr

/-- FS is the local staging state of one pipeline invocation: whether the
downloaded PDF, the converted archive, and the extraction directory exist on
disk. -/
structure FS where
  pdf : Bool
  zipf : Bool
  extracted : Bool
deriving DecidableEq, Repr

/-- unlinkPdf models `if pdf_path.exists(): pdf_path.unlink()`. -/
def unlinkPdf (fs : FS) : FS := { fs with pdf := false }

/-- unlinkZip models `if zip_path.exists(): zip_path.unlink()`. -/
def unlinkZip (fs : FS) : FS := { fs with zipf := false }

/-- rmExtractDir models `shutil.rmtree(extract_dir)` guarded by existence. -/
def rmExtractDir (fs : FS) : FS := { fs with extracted := false }

/-- download_pdf gives the returned value of `PDFProcessor.download_pdf`
together with whether the PDF file is on disk afterwards. -/
def download_pdf : DlOutcome → Option Unit × Bool
  | .ok => (some (), true)
  | .noToken => (none, false)
  | .noFieldId => (none, false)
  | .exn created => (none, created)

/-- convert_pdf_to_zip gives the returned value of
`PDFProcessor.convert_pdf_to_zip` together with whether the archive is on
disk afterwards. -/
def convert_pdf_to_zip : CvOutcome → Option Unit × Bool
  | .ok => (some (), true)
  | .noZip => (none, false)
  | .exn created => (none, created)

/-- extract_context gives the returned value of
`PDFProcessor.extract_context` together with whether the extraction directory
is on disk afterwards. -/
def extract_context : ExOutcome → Option String × Bool
  | .ok s => (some s, true)
  | .noMd => (none, true)
  | .exn created => (none, created)

/-- process_record is `PDFProcessor.process_record` (`pdf_processor.py`
lines 155-217), statement by statement: download, convert (on failure unlink
the PDF), extract (on failure unlink PDF and archive; a falsy context string
takes the same path), upload (an exception propagates to the outer handler,
which returns False WITHOUT running the cleanup below it), then on success
unlink the PDF and remove the extraction directory — the archive is not
removed here. The result is the boolean return value and the final staging
state. -/
def process_record (env : PipelineEnv) : Bool × FS :=
  let fs0 : FS := ⟨false, false, false⟩
  let dl := download_pdf env.download
  let fs1 : FS := { fs0 with pdf := dl.2 }
  match dl.1 with
  | none => (false, fs1)
  | some _ =>
    let cv := convert_pdf_to_zip env.convert
    let fs2 : FS := { fs1 with zipf := cv.2 }
    match cv.1 with
    | none => (false, unlinkPdf fs2)
    | some _ =>
      let ex := extract_context env.extract
      let fs3 : FS := { fs2 with extracted := ex.2 }
      match ex.1 with
      | none => (false, unlinkZip (unlinkPdf fs3))
      | some context =>
        if context.isEmpty then (false, unlinkZip (unlinkPdf fs3))
        else
          match env.upload with
          | .exn => (false, fs3)
          | .ok => (true, rmExtractDir (unlinkPdf fs3))

/-- all_stages_ok states, as a flat conjunction, that all four stages succeed
for this invocation and the extracted context is non-empty. -/
def all_stages_ok (env : PipelineEnv) : Bool :=
  (env.download == .ok)
    && (env.convert == .ok)
    && (match env.extract with
        | .ok s => !s.isEmpty
        | _ => false)
    && (env.upload == .ok)

/-- C6: the pipeline returns true exactly when all four stages succeed (with
a non-empty extracted context); every stage exception or stage failure is
absorbed into a false return, never an escaping exception — process_record is
a total boolean-valued function of the stage outcomes. -/
theorem process_record_true_iff_all_stages (env : PipelineEnv) :
    (process_record env).fst = all_stages_ok env := by
  obtain ⟨dl, cv, ex, up⟩ := env
  cases dl <;> cases cv <;> cases up <;>
    simp [process_record, all_stages_ok, download_pdf, convert_pdf_to_zip, extract_context,
      unlinkPdf, unlinkZip, rmExtractDir] <;>
  cases ex <;>
    simp [extract_context] <;>
  next s => by_cases h : s.isEmpty <;> simp [h]

/-- sampleContext is a concrete non-empty extracted markdown text used by the
concrete counterexample and witness instances. -/
def sampleContext : String := "content"

/-- convert_failed holds for the two failure outcomes of the Convert stage:
the converter raised, or it ran without producing the archive. -/
def convert_failed : CvOutcome → Bool
  | .ok => false
  | .noZip => true
  | .exn _ => true

/-- C2 counterexample: when Download, Convert and Extract succeed and Upload
raises, the invocation returns false with the downloaded PDF still on disk
(the upload exception jumps to the outer handler, skipping the cleanup that
follows the upload call), contradicting the claim that no residual downloaded
PDF remains. -/
theorem upload_failure_retains_pdf :
    (process_record ⟨.ok, .ok, .ok sampleContext, .exn⟩).snd.pdf = true
    ∧ process_record ⟨.ok, .ok, .ok sampleContext, .exn⟩ = (false, ⟨true, true, true⟩) := by
  refine ⟨rfl, rfl⟩

/-- C2 amended: a pipeline invocation whose first three stages succeed (with
a non-empty context) and whose Upload stage raises returns false and leaves
the downloaded PDF, the archive and the extraction directory all on disk — no
cleanup at all runs on the upload-failure path. -/
theorem upload_failure_cleanup (env : PipelineEnv) (s : String)
    (hd : env.download = .ok) (hc : env.convert = .ok) (he : env.extract = .ok s)
    (hs : s.isEmpty = false) (hu : env.upload = .exn) :
    process_record env = (false, ⟨true, true, true⟩) := by
  obtain ⟨dl, cv, ex, up⟩ := env
  simp only at hd hc he hu
  subst hd hc he hu
  simp [process_record, download_pdf, convert_pdf_to_zip, extract_context, hs,
    unlinkPdf, unlinkZip]

/-- Witness for the amended C2 theorem at a concrete environment. -/
theorem upload_failure_cleanup_witness :
    process_record ⟨.ok, .ok, .ok sampleContext, .exn⟩ = (false, ⟨true, true, true⟩) :=
  upload_failure_cleanup ⟨.ok, .ok, .ok sampleContext, .exn⟩ sampleContext rfl rfl rfl rfl rfl

/-- C9: whenever the Download stage succeeds and the Convert stage fails
(converter raised or produced no archive), the invocation returns false and
the downloaded PDF has been deleted — no residual downloaded file remains. -/
theorem convert_failure_removes_pdf (env : PipelineEnv)
    (hd : env.download = .ok) (hc : convert_failed env.convert = true) :
    (process_record env).fst = false ∧ (process_record env).snd.pdf = false := by
  obtain ⟨dl, cv, ex, up⟩ := env
  simp only at hd hc
  subst hd
  cases cv with
  | ok => simp [convert_failed] at hc
  | noZip =>
      simp [process_record, download_pdf, convert_pdf_to_zip, unlinkPdf]
  | exn c =>
      simp [process_record, download_pdf, convert_pdf_to_zip, unlinkPdf]

/-- Witness for the C9 theorem at a concrete environment. -/
theorem convert_failure_removes_pdf_witness :
    (process_record ⟨.ok, .noZip, .noMd, .ok⟩).fst = false
    ∧ (process_record ⟨.ok, .noZip, .noMd, .ok⟩).snd.pdf = false :=
  convert_failure_removes_pdf ⟨.ok, .noZip, .noMd, .ok⟩ rfl rfl

/-- C8 counterexample: on the fully successful path the invocation returns
true having removed the PDF and the extraction directory, but the archive is
still on disk — so it is not the case that all locally staged files are
removed before the invocation returns on every path. -/
theorem success_path_leaves_archive :
    process_record ⟨.ok, .ok, .ok sampleContext, .ok⟩ = (true, ⟨false, true, false⟩)
    ∧ (process_record ⟨.ok, .ok, .ok sampleContext, .ok⟩).snd.zipf = true := by
  refine ⟨rfl, rfl⟩

/-- pipeline_outcome_table is the per-path cleanup summary of one pipeline
invocation: the returned boolean and which staged files survive, listed case
by case over the stage outcomes. -/
def pipeline_outcome_table (env : PipelineEnv) : Bool × FS :=
  match env.download with
  | .noToken => (false, ⟨false, false, false⟩)
  | .noFieldId => (false, ⟨false, false, false⟩)
  | .exn c => (false, ⟨c, false, false⟩)
  | .ok =>
    match env.convert with
    | .noZip => (false, ⟨false, false, false⟩)
    | .exn c => (false, ⟨false, c, false⟩)
    | .ok =>
      match env.extract with
      | .noMd => (false, ⟨false, false, true⟩)
      | .exn c => (false, ⟨false, false, c⟩)
      | .ok s =>
        if s.isEmpty then (false, ⟨false, false, true⟩)
        else
          match env.upload with
          | .exn => (false, ⟨true, true, true⟩)
          | .ok => (true, ⟨false, true, false⟩)

/-- C8 amended: cleanup is per-path and incomplete, not all-files-on-all
paths: on success the PDF and extraction directory are removed but the
archive survives; convert failure removes the PDF; extract failure removes
PDF and archive but can leave the extraction directory; upload failure
removes nothing; download failure leaves at most a half-written PDF left by
the raising transfer. The theorem characterises
the final staging state of every invocation. -/
theorem process_record_cleanup_by_path (env : PipelineEnv) :
    process_record env = pipeline_outcome_table env := by
  obtain ⟨dl, cv, ex, up⟩ := env
  cases dl <;> cases cv <;> cases up <;>
    simp [process_record, pipeline_outcome_table, download_pdf, convert_pdf_to_zip,
      extract_context, unlinkPdf, unlinkZip, rmExtractDir] <;>
  cases ex <;>
    simp [extract_context]

/-- RecordGuard is the three-way outcome of the eligibility guard of the
single-record endpoint (`app.py` lines 321-341). -/
inductive RecordGuard where
  | missingOrigin
  | targetsFilled
  | accepted
deriving DecidableEq, Repr

/-- translate_record_guard mirrors the guard of `translate_record`: reject
with the no-PDF error when the origin check fails, then reject with the
targets-already-filled error unless BOTH target columns test empty, else
accept the record for processing. -/
def translate_record_guard (r : TableRecord) : RecordGuard :=
  if !origin_has_value r.origin then .missingOrigin
  else if !(target_file_empty r.target_file && target_context_empty r.target_context) then
    .targetsFilled
  else .accepted

/-- guard_accepted tests whether the endpoint guard lets the record through
to processing. -/
def guard_accepted (r : TableRecord) : Bool :=
  match translate_record_guard r with
  | .accepted => true
  | _ => false

/-- C1 counterexample: a record whose origin is a non-empty attachment list
and which has exactly one of the two target columns filled (the target-file
column holds a non-empty list, the target-context column is absent) is
REJECTED with the targets-filled error, not accepted as the claim states. -/
theorem one_target_filled_rejected :
    origin_has_value (.vlist 1) = true
    ∧ target_file_empty (.vlist 1) = false
    ∧ target_context_empty .absent = true
    ∧ translate_record_guard ⟨"r1", .vlist 1, .vlist 1, .absent⟩ = .targetsFilled := by
  refine ⟨rfl, rfl, rfl, rfl⟩

/-- C1 amended: the single-record endpoint accepts a found record exactly
when the batch eligibility predicate holds: origin a non-empty list and BOTH
target columns empty; it rejects when the origin is empty and also when at
least one target column is already filled. -/
theorem guard_accepts_iff_eligible (r : TableRecord) :
    guard_accepted r = record_eligible r := by
  by_cases h1 : origin_has_value r.origin <;>
    by_cases h2 : target_file_empty r.target_file <;>
      by_cases h3 : target_context_empty r.target_context <;>
        simp [guard_accepted, translate_record_guard, record_eligible, is_eligible, h1, h2, h3]

/-- get_record_by_id mirrors `FeishuClient.get_record_by_id`
(`feishu_client.py` lines 164-183): the store answer is either a response
carrying an optional record or a raised exception; the except clause converts
every exception into a None return. -/
def get_record_by_id (resp : Except String (Option TableRecord)) : Option TableRecord :=
  match resp with
  | .ok r => r
  | .error _ => none

/-- translate_record_status is the HTTP status computed by the
`translate_record` endpoint after the record_id parameter was supplied: 404
when the lookup yields no record, 400 on either guard rejection, then 200 or
500 according to the pipeline result. -/
def translate_record_status (resp : Except String (Option TableRecord))
    (env : PipelineEnv) : Nat :=
  match get_record_by_id resp with
  | none => 404
  | some r =>
    match translate_record_guard r with
    | .missingOrigin => 400
    | .targetsFilled => 400
    | .accepted => if (process_record env).fst then 200 else 500

/-- C10: get_record_by_id converts every raised store exception into a None
return — it never lets the exception escape — and the endpoint therefore
answers 404 for any failed lookup, never 500. -/
theorem get_record_error_is_none_and_404 (e : String) (env : PipelineEnv) :
    get_record_by_id (Except.error e) = none
    ∧ translate_record_status (Except.error e) env = 404 :=
  ⟨rfl, rfl⟩

/-- TaskOutcome is what one submitted future delivers at the collection
point of `translate_all` (`app.py` lines 238-252): the pipeline returned
True, returned False, or the future raised at `future.result()`. -/
inductive TaskOutcome where
  | success
  | failure
  | exn
deriving DecidableEq, Repr

/-- BatchSummary is the final JSON summary of a blocking batch run. -/
structure BatchSummary where
  total : Nat
  processed : Nat
  failed : Nat
  failed_records : List String
deriving DecidableEq, Repr

/-- collect_results is the `as_completed` loop of `translate_all`: one
iteration per completed task, incrementing processed on success and failed
otherwise, appending the record id to the failed list for both a False
result and a raised exception. -/
def collect_results : List (String × TaskOutcome) → Nat → Nat → List String → Nat × Nat × List String
  | [], p, f, fr => (p, f, fr)
  | (rid, o) :: rest, p, f, fr =>
    match o with
    | .success => collect_results rest (p + 1) f fr
    | .failure => collect_results rest p (f + 1) (fr ++ [rid])
    | .exn => collect_results rest p (f + 1) (fr ++ [rid])

/-- run_blocking is the non-streaming batch body of `translate_all`: `total`
is the number of submitted records, and the counters come from consuming the
completion-order sequence of task results. -/
def run_blocking (records completed : List (String × TaskOutcome)) : BatchSummary :=
  let total := records.length
  let res := collect_results completed 0 0 []
  ⟨total, res.1, res.2.1, res.2.2⟩

/-- count_success counts the tasks whose pipeline returned True. -/
def count_success (l : List (String × TaskOutcome)) : Nat :=
  (l.filter fun t => t.2 == TaskOutcome.success).length

/-- count_fail counts the tasks that returned False or raised. -/
def count_fail (l : List (String × TaskOutcome)) : Nat :=
  (l.filter fun t => t.2 != TaskOutcome.success).length

/-- failed_ids lists, in completion order, the ids of the tasks that
returned False or raised. -/
def failed_ids (l : List (String × TaskOutcome)) : List String :=
  (l.filter fun t => t.2 != TaskOutcome.success).map Prod.fst

/-- collect_results_spec: the collection loop adds one success or one
failure per consumed task and appends exactly the failed ids. -/
theorem collect_results_spec (l : List (String × TaskOutcome)) :
    ∀ p f fr, collect_results l p f fr =
      (p + count_success l, f + count_fail l, fr ++ failed_ids l) := by
  induction l with
  | nil =>
      intro p f fr
      simp [collect_results, count_success, count_fail, failed_ids]
  | cons t rest ih =>
      obtain ⟨rid, o⟩ := t
      intro p f fr
      cases o <;>
        simp [collect_results, count_success, count_fail, failed_ids,
          List.filter_cons, ih] <;>
      omega

/-- count_success_add_count_fail: every task is counted exactly once. -/
theorem count_success_add_count_fail (l : List (String × TaskOutcome)) :
    count_success l + count_fail l = l.length := by
  induction l with
  | nil => rfl
  | cons t rest ih =>
      obtain ⟨rid, o⟩ := t
      simp only [count_success, count_fail] at ih
      cases o <;>
        simp [count_success, count_fail, List.filter_cons] <;>
      omega

/-- mem_failed_ids: a task that did not succeed has its id in the failed
list. -/
theorem mem_failed_ids (l : List (String × TaskOutcome)) (rid : String) (o : TaskOutcome)
    (hmem : (rid, o) ∈ l) (hne : o ≠ TaskOutcome.success) : rid ∈ failed_ids l := by
  simp only [failed_ids, List.mem_map, List.mem_filter]
  exact ⟨(rid, o), ⟨hmem, by simpa using hne⟩, rfl⟩

/-- C7: for a batch of N submitted records whose results arrive in any
completion order, the blocking run consumes every result without aborting
and its summary satisfies processed + failed = total = N, with the failed
list holding exactly the ids of the non-successful tasks (in particular the
id of every record that failed or raised appears in it). -/
theorem run_blocking_summary (records completed : List (String × TaskOutcome))
    (h : completed.Perm records) :
    (run_blocking records completed).processed + (run_blocking records completed).failed
        = (run_blocking records completed).total
    ∧ (run_blocking records completed).total = records.length
    ∧ (run_blocking records completed).failed_records = failed_ids completed
    ∧ records.all (fun t => t.2 == TaskOutcome.success
        || (run_blocking records completed).failed_records.contains t.1) = true := by
  have hrun : run_blocking records completed =
      ⟨records.length, count_success completed, count_fail completed, failed_ids completed⟩ := by
    simp [run_blocking, collect_results_spec]
  refine ⟨?_, ?_, ?_, ?_⟩
  · rw [hrun]
    simpa [count_success_add_count_fail completed] using h.length_eq
  · rw [hrun]
  · rw [hrun]
  · rw [hrun]
    simp only [List.all_eq_true]
    intro t hmem
    by_cases hsucc : t.2 = TaskOutcome.success
    · simp [hsucc]
    · have hin : t ∈ completed := (h.mem_iff).2 hmem
      have hid := mem_failed_ids completed t.1 t.2 (by simpa using hin) hsucc
      simp
      exact Or.inr hid

/-- demoSubmitted is a concrete three-record batch: one success, one
pipeline failure, one raising task. -/
def demoSubmitted : List (String × TaskOutcome) :=
  [("a", .success), ("b", .failure), ("c", .exn)]

/-- demoCompleted is the same batch in a different completion order. -/
def demoCompleted : List (String × TaskOutcome) :=
  [("b", .failure), ("a", .success), ("c", .exn)]

/-- Witness for the C7 theorem at a concrete permuted batch. -/
theorem run_blocking_summary_witness :
    (run_blocking demoSubmitted demoCompleted).processed
        + (run_blocking demoSubmitted demoCompleted).failed
        = (run_blocking demoSubmitted demoCompleted).total
    ∧ (run_blocking demoSubmitted demoCompleted).total = demoSubmitted.length
    ∧ (run_blocking demoSubmitted demoCompleted).failed_records = failed_ids demoCompleted
    ∧ demoSubmitted.all (fun t => t.2 == TaskOutcome.success
        || (run_blocking demoSubmitted demoCompleted).failed_records.contains t.1) = true :=
  run_blocking_summary demoSubmitted demoCompleted (by decide)

end Pdf2Md
